import Mathlib

/-!
Verification of a small wgpu-based rectangle renderer (src/main.rs).

Floating-point values of the source (`f32` positions, `f64` clear color)
are embedded as exact rationals; `u16` index arithmetic is embedded as
natural numbers with explicit reduction modulo 2^16; GPU side effects
(surface configuration, command recording, submission, presentation,
logging, process exit) are embedded as an explicit effect trace.
-/

namespace Wgpu

/-- A 2D vertex position, as in `struct Vertex { pos: [f32; 2] }`. -/
structure Vertex where
  x : ℚ
  y : ℚ
deriving DecidableEq

/-- The unit-quad template `base` of `State::new` (main.rs lines 106-111). -/
def base : List Vertex :=
  [⟨-1/4, -1/4⟩, ⟨1/4, -1/4⟩, ⟨1/4, 1/4⟩, ⟨-1/4, 1/4⟩]

/-- The per-quad index template `base_idx = [0, 1, 2, 0, 2, 3]` (line 113). -/
def base_idx : List ℕ := [0, 1, 2, 0, 2, 3]

/-- A rectangle descriptor `(cx, cy, hw, hh)` (center and half-extents). -/
structure Rect where
  cx : ℚ
  cy : ℚ
  hw : ℚ
  hh : ℚ
deriving DecidableEq

/-- The compiled-in rectangle list `rects` (main.rs lines 115-121). -/
def rects : List Rect :=
  [⟨-3/5, -2/5, 9/50, 9/50⟩,
   ⟨-1/10, -1/5, 3/25, 11/50⟩,
   ⟨1/2, -3/10, 1/4, 1/10⟩,
   ⟨-1/5, 1/2, 3/20, 3/20⟩,
   ⟨3/5, 1/2, 1/10, 1/5⟩]

/-- The four vertices pushed for one rectangle: for each template vertex `v`,
`pos = [cx + v.pos[0] * hw, cy + v.pos[1] * hh]` (lines 127-131). -/
def rectVertices (r : Rect) : List Vertex :=
  base.map (fun v => ⟨r.cx + v.x * r.hw, r.cy + v.y * r.hh⟩)

/-- The six indices pushed for rectangle number `i`: `base_idx[k] + off` in
`u16` arithmetic, where `off = (i * 4) as u16` (lines 133-137). -/
def rectIndices (i : ℕ) : List ℕ :=
  base_idx.map (fun b => (b + (i * 4) % 65536) % 65536)

/-- The vertex list accumulated by the `for` loop over the rectangles. -/
def buildVertices : List Rect → List Vertex
  | [] => []
  | r :: rs => rectVertices r ++ buildVertices rs

/-- The index list accumulated by the loop, starting at rectangle number `i`. -/
def buildIndicesFrom (i : ℕ) : List Rect → List ℕ
  | [] => []
  | _ :: rs => rectIndices i ++ buildIndicesFrom (i + 1) rs

/-- The full index list of the mesh (the loop starts at `i = 0`). -/
def buildIndices (rs : List Rect) : List ℕ := buildIndicesFrom 0 rs

/-- A surface texture format; `srgb` embeds `TextureFormat::is_srgb()`,
`id` distinguishes formats. -/
structure TextureFormat where
  id : ℕ
  srgb : Bool
deriving DecidableEq

/-- `let format = caps.formats.iter().copied().find(|f| f.is_srgb())
.unwrap_or(caps.formats[0])` (main.rs lines 78-82); the panic of `[0]` on an
empty list is embedded as `none`. -/
def chooseFormat (formats : List TextureFormat) : Option TextureFormat :=
  match formats.find? (fun f => f.srgb) with
  | some f => some f
  | none => formats.head?

/-- The present modes of wgpu. -/
inductive PresentMode where
  | AutoVsync
  | AutoNoVsync
  | Fifo
  | FifoRelaxed
  | Immediate
  | Mailbox
deriving DecidableEq

/-- `let present_mode = if caps.present_modes.contains(&Mailbox) { Mailbox }
else { Fifo }` (main.rs lines 84-90). -/
def choosePresentMode (caps : List PresentMode) : PresentMode :=
  if PresentMode.Mailbox ∈ caps then PresentMode.Mailbox else PresentMode.Fifo

/-- The surface configuration (main.rs lines 94-103); the alpha mode is
embedded as the index chosen from `caps.alpha_modes`. -/
structure SurfaceConfiguration where
  format : TextureFormat
  width : ℕ
  height : ℕ
  present_mode : PresentMode
  alpha_mode : ℕ
  desired_maximum_frame_latency : ℕ
deriving DecidableEq

/-- The initial configuration built in `State::new`:
`width: size.width.max(1), height: size.height.max(1)` (lines 94-103). -/
def initConfig (sw sh : ℕ) (format : TextureFormat) (pm : PresentMode)
    (am : ℕ) : SurfaceConfiguration :=
  { format := format, width := max sw 1, height := max sh 1,
    present_mode := pm, alpha_mode := am, desired_maximum_frame_latency := 2 }

/-- Primitive topologies of wgpu. -/
inductive PrimitiveTopology where
  | PointList
  | LineList
  | LineStrip
  | TriangleList
  | TriangleStrip
deriving DecidableEq

/-- Front-face winding orders. -/
inductive FrontFace where
  | Ccw
  | Cw
deriving DecidableEq

/-- Face selection for culling. -/
inductive Face where
  | Front
  | Back
deriving DecidableEq

/-- Polygon rasterization modes. -/
inductive PolygonMode where
  | Fill
  | Line
  | Point
deriving DecidableEq

/-- Blend factors (the ones `ALPHA_BLENDING` uses). -/
inductive BlendFactor where
  | Zero
  | One
  | SrcAlpha
  | OneMinusSrcAlpha
deriving DecidableEq

/-- Blend operations. -/
inductive BlendOperation where
  | Add
  | Subtract
deriving DecidableEq

/-- One blend component (source factor, destination factor, operation). -/
structure BlendComponent where
  src_factor : BlendFactor
  dst_factor : BlendFactor
  operation : BlendOperation
deriving DecidableEq

/-- A color/alpha blend state pair. -/
structure BlendState where
  color : BlendComponent
  alpha : BlendComponent
deriving DecidableEq

/-- `wgpu::BlendState::ALPHA_BLENDING`. -/
def alphaBlending : BlendState :=
  { color := ⟨BlendFactor.SrcAlpha, BlendFactor.OneMinusSrcAlpha,
      BlendOperation.Add⟩,
    alpha := ⟨BlendFactor.One, BlendFactor.OneMinusSrcAlpha,
      BlendOperation.Add⟩ }

/-- A color target state; `write_mask = 15` embeds `ColorWrites::ALL`. -/
structure ColorTargetState where
  format : TextureFormat
  blend : Option BlendState
  write_mask : ℕ
deriving DecidableEq

/-- `wgpu::PrimitiveState` (main.rs lines 209-217); `strip_index_format` is
embedded as an optional tag. -/
structure PrimitiveState where
  topology : PrimitiveTopology
  strip_index_format : Option ℕ
  front_face : FrontFace
  cull_mode : Option Face
  polygon_mode : PolygonMode
  unclipped_depth : Bool
  conservative : Bool
deriving DecidableEq

/-- `wgpu::MultisampleState` (`count`, `mask`, alpha-to-coverage flag). -/
structure MultisampleState where
  count : ℕ
  mask : ℕ
  alpha_to_coverage_enabled : Bool
deriving DecidableEq

/-- The fixed-function part of the render pipeline descriptor built in
`State::new` (main.rs lines 190-222): the color targets, primitive state,
depth/stencil attachment (absent) and multisample state. -/
structure RenderPipelineDesc where
  targets : List (Option ColorTargetState)
  primitive : PrimitiveState
  depth_stencil : Option ℕ
  multisample : MultisampleState
deriving DecidableEq

/-- The pipeline descriptor of `State::new`, parameterized by the chosen
surface format (`format: config.format`, line 203): alpha blending on the one
color target, triangle-list topology, Ccw front face, back-face culling, fill
polygon mode, no depth/stencil, default multisample state
(count 1, mask !0, no alpha-to-coverage). -/
def makePipeline (format : TextureFormat) : RenderPipelineDesc :=
  { targets := [some ⟨format, some alphaBlending, 15⟩],
    primitive := ⟨PrimitiveTopology.TriangleList, none, FrontFace.Ccw,
      some Face.Back, PolygonMode.Fill, false, false⟩,
    depth_stencil := none,
    multisample := ⟨1, 2 ^ 64 - 1, false⟩ }

/-- An RGBA color with `f64` components embedded as rationals. -/
structure Color where
  r : ℚ
  g : ℚ
  b : ℚ
  a : ℚ
deriving DecidableEq

/-- The clear color of the render pass:
`Color { r: 0.05, g: 0.05, b: 0.08, a: 1.0 }` (main.rs lines 277-282). -/
def clearColor : Color := ⟨1/20, 1/20, 2/25, 1⟩

/-- The observable GPU/OS side effects of the program, as one trace
alphabet: surface reconfiguration, the render-pass recording steps, queue
submission, presentation, and the error log line of `render`. -/
inductive Effect where
  | configureSurface (w h : ℕ)
  | createView
  | beginPass (clear : Color)
  | setPipeline
  | setVertexBuffer
  | setIndexBuffer
  | drawIndexed (lo hi : ℕ)
  | endPass
  | submit
  | present
  | logAcquireError
deriving DecidableEq

/-- The result of `surface.get_current_texture()` (main.rs line 245):
success, `SurfaceError::Lost`, `SurfaceError::Outdated`, or any other error. -/
inductive AcquireResult where
  | ok
  | lost
  | outdated
  | otherError
deriving DecidableEq

/-- The persistent fields of `struct State` that the claims touch: the
surface configuration, the pipeline, the mesh buffers and the index count. -/
structure State where
  config : SurfaceConfiguration
  pipeline : RenderPipelineDesc
  vertex_buf : List Vertex
  index_buf : List ℕ
  index_count : ℕ
deriving DecidableEq

/-- `State::resize` (main.rs lines 238-242): clamp both dimensions to at
least 1, store them in the configuration, then reconfigure the surface. -/
def State.resize (s : State) (w h : ℕ) : State × List Effect :=
  let config := { s.config with width := max w 1, height := max h 1 }
  ({ s with config := config },
   [Effect.configureSurface config.width config.height])

/-- `State::render` (main.rs lines 244-302), as a function of the texture
acquisition outcome: on `Lost` reconfigure and return; on `Outdated` return;
on any other error log and return; on success record one render pass
(clear, pipeline, vertex buffer, index buffer, one indexed draw over
`0..self.index_count`), submit, and present. -/
def State.render (s : State) (acq : AcquireResult) : State × List Effect :=
  match acq with
  | AcquireResult.lost =>
      (s, [Effect.configureSurface s.config.width s.config.height])
  | AcquireResult.outdated => (s, [])
  | AcquireResult.otherError => (s, [Effect.logAcquireError])
  | AcquireResult.ok =>
      (s, [Effect.createView, Effect.beginPass clearColor,
        Effect.setPipeline, Effect.setVertexBuffer, Effect.setIndexBuffer,
        Effect.drawIndexed 0 s.index_count, Effect.endPass, Effect.submit,
        Effect.present])

/-- Physical key codes (only Escape is distinguished by the program). -/
inductive KeyCode where
  | Escape
  | Other (n : ℕ)
deriving DecidableEq

/-- Logical key states. -/
inductive ElementState where
  | Pressed
  | Released
deriving DecidableEq

/-- The window events the handler matches on (main.rs lines 346-359);
events of the catch-all arm are `other`. -/
inductive WindowEvent where
  | resized (w h : ℕ)
  | redrawRequested
  | closeRequested
  | keyboardInput (key : KeyCode) (st : ElementState)
  | other
deriving DecidableEq

/-- `struct App { state: Option State, window_id: Option WindowId }`
(main.rs lines 307-310); window ids are embedded as naturals. -/
structure App where
  state : Option State
  window_id : Option ℕ
deriving DecidableEq

/-- `App::window_event` (main.rs lines 333-360): drop the event if its id is
not the created window's id or the state is not yet built; otherwise resize
on Resized, render on RedrawRequested, exit on CloseRequested or on a
pressed Escape key, and ignore everything else. The third component is true
exactly when `std::process::exit(0)` is reached. -/
def App.windowEvent (app : App) (id : ℕ) (ev : WindowEvent)
    (acq : AcquireResult) : App × List Effect × Bool :=
  if some id ≠ app.window_id then (app, [], false)
  else
    match app.state with
    | none => (app, [], false)
    | some s =>
        match ev with
        | WindowEvent.resized w h =>
            let p := s.resize w h
            ({ app with state := some p.1 }, p.2, false)
        | WindowEvent.redrawRequested =>
            let p := s.render acq
            ({ app with state := some p.1 }, p.2, false)
        | WindowEvent.closeRequested => (app, [], true)
        | WindowEvent.keyboardInput KeyCode.Escape ElementState.Pressed =>
            (app, [], true)
        | WindowEvent.keyboardInput _ _ => (app, [], false)
        | WindowEvent.other => (app, [], false)

/-- Whether an event makes the handler call `std::process::exit(0)` when the
application is running. -/
def isExitEvent : WindowEvent → Bool
  | WindowEvent.closeRequested => true
  | WindowEvent.keyboardInput KeyCode.Escape ElementState.Pressed => true
  | _ => false

/-- The effect trace of a sequence of delivered window events (each paired
with the texture-acquisition outcome a redraw would see): processing stops
at the first event that terminates the process, and later events contribute
nothing. -/
def processEvents (id : ℕ) : App → List (WindowEvent × AcquireResult) →
    List Effect
  | _, [] => []
  | app, e :: rest =>
      let t := app.windowEvent id e.1 e.2
      if t.2.2 then t.2.1 else t.2.1 ++ processEvents id t.1 rest

/-- A concrete running state used to instantiate the theorems: the
compiled-in mesh with an 800x600 surface. -/
def demoState : State :=
  { config := initConfig 800 600 ⟨0, true⟩ PresentMode.Fifo 0,
    pipeline := makePipeline ⟨0, true⟩,
    vertex_buf := buildVertices rects,
    index_buf := buildIndices rects,
    index_count := (buildIndices rects).length }

theorem length_buildVertices (rs : List Rect) :
    (buildVertices rs).length = 4 * rs.length := by
  induction rs with
  | nil => rfl
  | cons r rs ih =>
      simp [buildVertices, rectVertices, base, ih]
      omega

theorem length_buildIndicesFrom (i : ℕ) (rs : List Rect) :
    (buildIndicesFrom i rs).length = 6 * rs.length := by
  induction rs generalizing i with
  | nil => rfl
  | cons r rs ih =>
      simp [buildIndicesFrom, rectIndices, base_idx, ih]
      omega

theorem mem_buildIndicesFrom (i : ℕ) (rs : List Rect) (n : ℕ)
    (h : n ∈ buildIndicesFrom i rs) :
    ∃ j b, i ≤ j ∧ j < i + rs.length ∧ b ≤ 3 ∧
      n = (b + (j * 4) % 65536) % 65536 := by
  induction rs generalizing i with
  | nil => simp [buildIndicesFrom] at h
  | cons r rs ih =>
      simp only [buildIndicesFrom, List.mem_append] at h
      rcases h with h | h
      · simp only [rectIndices, base_idx, List.mem_map, List.mem_cons,
          List.not_mem_nil, or_false] at h
        obtain ⟨b, hb, hn⟩ := h
        refine ⟨i, b, le_refl i, by simp, ?_, hn.symm⟩
        rcases hb with h | h | h | h | h | h <;> omega
      · obtain ⟨j, b, hj1, hj2, hb, hn⟩ := ih (i + 1) h
        exact ⟨j, b, by omega, by simp; omega, hb, hn⟩

/-- C1: for every rectangle list of length N the mesh has 4N vertices and
6N indices, the index count is a multiple of 3, every index is < 4N; for
the compiled-in list of 5 rectangles: 20 vertices, 30 indices, all < 20. -/
theorem mesh_shape_spec (rs : List Rect) :
    (buildVertices rs).length = 4 * rs.length ∧
    (buildIndices rs).length = 6 * rs.length ∧
    (buildIndices rs).length % 3 = 0 ∧
    (∀ n ∈ buildIndices rs, n < 4 * rs.length) ∧
    (buildVertices rects).length = 4 * 5 ∧
    (buildIndices rects).length = 6 * 5 ∧
    ∀ n ∈ buildIndices rects, n < 4 * 5 := by
  refine ⟨length_buildVertices rs, length_buildIndicesFrom 0 rs, ?_, ?_,
    by decide, by decide, by decide⟩
  · rw [buildIndices, length_buildIndicesFrom]; omega
  · intro n hn
    obtain ⟨j, b, _, hj2, hb, hn⟩ := mem_buildIndicesFrom 0 rs n hn
    omega

/-- C1 witness: a concrete index of the compiled-in mesh is below the
vertex count. -/
theorem mesh_shape_spec_witness :
    (19 : ℕ) ∈ buildIndices rects ∧ (19 : ℕ) < 4 * rects.length :=
  ⟨by decide, (mesh_shape_spec rects).2.2.2.1 19 (by decide)⟩

/-- C2: for every rectangle (cx, cy, hw, hh) the four emitted vertices are
(cx - hw/4, cy - hh/4), (cx + hw/4, cy - hh/4), (cx + hw/4, cy + hh/4),
(cx - hw/4, cy + hh/4), in that order; for (-0.6, -0.4, 0.18, 0.18) they
are (-0.645, -0.445), (-0.555, -0.445), (-0.555, -0.355), (-0.645, -0.355). -/
theorem rect_vertices_spec (r : Rect) :
    rectVertices r =
      [⟨r.cx - 1/4 * r.hw, r.cy - 1/4 * r.hh⟩,
       ⟨r.cx + 1/4 * r.hw, r.cy - 1/4 * r.hh⟩,
       ⟨r.cx + 1/4 * r.hw, r.cy + 1/4 * r.hh⟩,
       ⟨r.cx - 1/4 * r.hw, r.cy + 1/4 * r.hh⟩] ∧
    rectVertices ⟨-3/5, -2/5, 9/50, 9/50⟩ =
      [⟨-129/200, -89/200⟩, ⟨-111/200, -89/200⟩,
       ⟨-111/200, -71/200⟩, ⟨-129/200, -71/200⟩] := by
  constructor
  · simp only [rectVertices, base, List.map_cons, List.map_nil,
      List.cons.injEq, Vertex.mk.injEq, and_true]
    norm_num
    ring_nf
    norm_num
  · norm_num [rectVertices, base, Vertex.mk.injEq]

/-- C3 counterexample: for the capability set containing only Immediate,
the selected mode (Fifo) is not a member of the set. -/
theorem present_mode_not_member :
    choosePresentMode [PresentMode.Immediate] ∉ [PresentMode.Immediate] := by
  decide

/-- C3 (amended): if the capability set contains Mailbox then Mailbox is
selected, otherwise Fifo is selected; and whenever the set contains Fifo or
Mailbox (every compliant device advertises Fifo), the selected mode is a
member of the set. -/
theorem present_mode_spec (caps : List PresentMode) :
    (PresentMode.Mailbox ∈ caps →
      choosePresentMode caps = PresentMode.Mailbox) ∧
    (PresentMode.Mailbox ∉ caps →
      choosePresentMode caps = PresentMode.Fifo) ∧
    (PresentMode.Fifo ∈ caps ∨ PresentMode.Mailbox ∈ caps →
      choosePresentMode caps ∈ caps) := by
  unfold choosePresentMode
  refine ⟨fun h => if_pos h, fun h => if_neg h, fun h => ?_⟩
  by_cases hm : PresentMode.Mailbox ∈ caps
  · rw [if_pos hm]; exact hm
  · rw [if_neg hm]; exact h.resolve_right hm

/-- C3 witness: concrete capability sets. -/
theorem present_mode_spec_witness :
    choosePresentMode [PresentMode.Fifo, PresentMode.Mailbox] =
      PresentMode.Mailbox ∧
    choosePresentMode [PresentMode.Fifo] = PresentMode.Fifo ∧
    choosePresentMode [PresentMode.Fifo] ∈ [PresentMode.Fifo] :=
  ⟨(present_mode_spec _).1 (by decide),
   (present_mode_spec _).2.1 (by decide),
   (present_mode_spec _).2.2 (Or.inl (by decide))⟩

theorem find_first_characterization {α : Type} (p : α → Bool) (l : List α)
    (f : α) (h : l.find? p = some f) :
    ∃ i : ℕ, l[i]? = some f ∧ p f = true ∧
      ∀ (j : ℕ) (g : α), j < i → l[j]? = some g → p g = false := by
  induction l with
  | nil => simp at h
  | cons a as ih =>
      cases hp : p a with
      | true =>
          rw [List.find?_cons_of_pos _ hp] at h
          refine ⟨0, ?_, ?_, fun j g hj _ => absurd hj (by omega)⟩
          · simpa using h
          · cases h; exact hp
      | false =>
          rw [List.find?_cons_of_neg _ (by simp [hp])] at h
          obtain ⟨i, h1, h2, h3⟩ := ih h
          refine ⟨i + 1, by simpa using h1, h2, ?_⟩
          intro j g hj hg
          cases j with
          | zero => simp at hg; cases hg; exact hp
          | succ j => exact h3 j g (by omega) (by simpa using hg)

/-- C4: for every non-empty format list, if some format is sRGB then the
first such format is chosen; if none is, the first format of the list is
chosen. -/
theorem format_selection_spec (fs : List TextureFormat) (h : fs ≠ []) :
    ((∃ f ∈ fs, f.srgb = true) →
      ∃ (i : ℕ) (f : TextureFormat), fs[i]? = some f ∧ f.srgb = true ∧
        chooseFormat fs = some f ∧
        ∀ (j : ℕ) (g : TextureFormat), j < i → fs[j]? = some g →
          g.srgb = false) ∧
    ((∀ f ∈ fs, f.srgb = false) → chooseFormat fs = fs.head?) ∧
    (∃ f, chooseFormat fs = some f) := by
  refine ⟨?_, ?_, ?_⟩
  · rintro ⟨f₀, hf₀, hs₀⟩
    have hsome : (fs.find? (fun f => f.srgb)).isSome := by
      rw [List.find?_isSome]; exact ⟨f₀, hf₀, hs₀⟩
    obtain ⟨f, hf⟩ := Option.isSome_iff_exists.mp hsome
    obtain ⟨i, h1, h2, h3⟩ := find_first_characterization _ fs f hf
    exact ⟨i, f, h1, h2, by simp [chooseFormat, hf], h3⟩
  · intro hall
    have hnone : fs.find? (fun f => f.srgb) = none := by
      rw [List.find?_eq_none]
      intro x hx
      simp [hall x hx]
    simp [chooseFormat, hnone]
  · rcases hfind : fs.find? (fun f => f.srgb) with _ | f
    · obtain ⟨a, as, rfl⟩ := List.exists_cons_of_ne_nil h
      exact ⟨a, by simp [chooseFormat, hfind]⟩
    · exact ⟨f, by simp [chooseFormat, hfind]⟩

/-- C4 witness: on the list [non-sRGB 0, sRGB 1, sRGB 2] the first sRGB
format (id 1) is chosen. -/
theorem format_selection_spec_witness :
    ([⟨0, false⟩, ⟨1, true⟩, ⟨2, true⟩] : List TextureFormat) ≠ [] ∧
    ∃ (i : ℕ) (f : TextureFormat),
      ([⟨0, false⟩, ⟨1, true⟩, ⟨2, true⟩] : List TextureFormat)[i]? =
        some f ∧
      f.srgb = true ∧
      chooseFormat [⟨0, false⟩, ⟨1, true⟩, ⟨2, true⟩] = some f ∧
      ∀ (j : ℕ) (g : TextureFormat), j < i →
        ([⟨0, false⟩, ⟨1, true⟩, ⟨2, true⟩] : List TextureFormat)[j]? =
          some g → g.srgb = false :=
  ⟨by decide,
   (format_selection_spec _ (by decide)).1 ⟨⟨1, true⟩, by decide, rfl⟩⟩

/-- C5: resize(w, h) sets the configured width to max(w, 1) and the height
to max(h, 1) and reconfigures the surface with exactly those dimensions;
resize(0, 0) gives 1 x 1, resize(800, 600) gives 800 x 600; width and
height are at least 1 after every resize and after the initial
configuration. -/
theorem resize_spec (s : State) (w h sw sh am : ℕ) (f : TextureFormat)
    (pm : PresentMode) :
    (s.resize w h).1.config.width = max w 1 ∧
    (s.resize w h).1.config.height = max h 1 ∧
    (s.resize w h).2 =
      [Effect.configureSurface (max w 1) (max h 1)] ∧
    (s.resize 0 0).1.config.width = 1 ∧
    (s.resize 0 0).1.config.height = 1 ∧
    (s.resize 800 600).1.config.width = 800 ∧
    (s.resize 800 600).1.config.height = 600 ∧
    1 ≤ (s.resize w h).1.config.width ∧
    1 ≤ (s.resize w h).1.config.height ∧
    1 ≤ (initConfig sw sh f pm am).width ∧
    1 ≤ (initConfig sw sh f pm am).height := by
  simp [State.resize, initConfig]

/-- C6: render handles every acquisition failure without drawing and
without terminating: on lost it reconfigures with the current configuration
and stops; on outdated it does nothing; on any other error it only logs;
no failure case submits, presents, or draws. -/
theorem render_failure_spec (s : State) :
    s.render AcquireResult.lost =
      (s, [Effect.configureSurface s.config.width s.config.height]) ∧
    s.render AcquireResult.outdated = (s, []) ∧
    s.render AcquireResult.otherError = (s, [Effect.logAcquireError]) ∧
    ∀ acq, acq ≠ AcquireResult.ok →
      (∀ lo hi, Effect.drawIndexed lo hi ∉ (s.render acq).2) ∧
      Effect.submit ∉ (s.render acq).2 ∧
      Effect.present ∉ (s.render acq).2 ∧
      (s.render acq).1 = s := by
  refine ⟨rfl, rfl, rfl, ?_⟩
  intro acq hacq
  cases acq with
  | ok => exact absurd rfl hacq
  | lost => simp [State.render]
  | outdated => simp [State.render]
  | otherError => simp [State.render]

/-- C6 witness: the lost case at the concrete demo state neither submits
nor draws. -/
theorem render_failure_spec_witness :
    AcquireResult.lost ≠ AcquireResult.ok ∧
    Effect.submit ∉ (demoState.render AcquireResult.lost).2 ∧
    (demoState.render AcquireResult.lost).1 = demoState := by
  have h := (render_failure_spec demoState).2.2.2
    AcquireResult.lost (by decide)
  exact ⟨by decide, h.2.1, h.2.2.2⟩

/-- C7: on a successful acquisition, render records exactly the ordered
trace create-view, begin-pass clearing to the fixed background color, bind
pipeline, bind vertex buffer, bind index buffer, one indexed draw over the
full range 0..index_count, end-pass, submit, present; so there is exactly
one render pass, the bindings and the single draw lie inside that pass
(between its begin and its end, before submission), the commands are
submitted at position 7, and the texture is presented at position 8, after
the submission. -/
theorem render_success_spec (s : State) :
    (s.render AcquireResult.ok).2 =
      [Effect.createView, Effect.beginPass clearColor, Effect.setPipeline,
       Effect.setVertexBuffer, Effect.setIndexBuffer,
       Effect.drawIndexed 0 s.index_count, Effect.endPass, Effect.submit,
       Effect.present] ∧
    ((s.render AcquireResult.ok).2.countP
      (fun e => match e with
        | Effect.beginPass _ => true | _ => false) = 1) ∧
    Effect.beginPass ⟨1/20, 1/20, 2/25, 1⟩ ∈ (s.render AcquireResult.ok).2 ∧
    Effect.setPipeline ∈ (s.render AcquireResult.ok).2 ∧
    Effect.setVertexBuffer ∈ (s.render AcquireResult.ok).2 ∧
    Effect.setIndexBuffer ∈ (s.render AcquireResult.ok).2 ∧
    ((s.render AcquireResult.ok).2.countP
      (fun e => match e with
        | Effect.drawIndexed _ _ => true | _ => false) = 1) ∧
    Effect.drawIndexed 0 s.index_count ∈ (s.render AcquireResult.ok).2 ∧
    Effect.submit ∈ (s.render AcquireResult.ok).2 ∧
    Effect.present ∈ (s.render AcquireResult.ok).2 ∧
    ((s.render AcquireResult.ok).2.take 7).drop 1 =
      [Effect.beginPass clearColor, Effect.setPipeline,
       Effect.setVertexBuffer, Effect.setIndexBuffer,
       Effect.drawIndexed 0 s.index_count, Effect.endPass] ∧
    (s.render AcquireResult.ok).2[7]? = some Effect.submit ∧
    (s.render AcquireResult.ok).2[8]? = some Effect.present ∧
    ∀ lo hi, Effect.drawIndexed lo hi ∈ (s.render AcquireResult.ok).2 →
      lo = 0 ∧ hi = s.index_count := by
  refine ⟨rfl, ?_, ?_, ?_, ?_, ?_, ?_, ?_, ?_, ?_, rfl, rfl, rfl, ?_⟩
  · simp [State.render, List.countP, List.countP.go, clearColor]
  · simp [State.render, clearColor]
  · simp [State.render]
  · simp [State.render]
  · simp [State.render]
  · simp [State.render, List.countP, List.countP.go]
  · simp [State.render]
  · simp [State.render]
  · simp [State.render]
  · intro lo hi hmem
    simp [State.render] at hmem
    exact hmem

/-- C7 witness: the one draw call of the demo state spans 0..30. -/
theorem render_success_spec_witness :
    Effect.drawIndexed 0 demoState.index_count ∈
      (demoState.render AcquireResult.ok).2 ∧
    (0 = 0 ∧ demoState.index_count = demoState.index_count) := by
  obtain ⟨-, -, -, -, -, -, -, hmem, -, -, -, -, -, hall⟩ :=
    render_success_spec demoState
  exact ⟨hmem, hall 0 demoState.index_count hmem⟩

theorem windowEvent_exit (app : App) (wid : ℕ) (ev : WindowEvent)
    (acq : AcquireResult) (h1 : app.window_id = some wid)
    (h2 : app.state.isSome = true) (hev : isExitEvent ev = true) :
    app.windowEvent wid ev acq = (app, [], true) := by
  obtain ⟨s, hs⟩ := Option.isSome_iff_exists.mp h2
  cases ev with
  | resized w h => simp [isExitEvent] at hev
  | redrawRequested => simp [isExitEvent] at hev
  | closeRequested => simp [App.windowEvent, h1, hs]
  | keyboardInput key st =>
      cases key with
      | Escape =>
          cases st with
          | Pressed => simp [App.windowEvent, h1, hs]
          | Released => simp [isExitEvent] at hev
      | Other n => simp [isExitEvent] at hev
  | other => simp [isExitEvent] at hev

theorem windowEvent_preserves (app : App) (id : ℕ) (ev : WindowEvent)
    (acq : AcquireResult) :
    (app.windowEvent id ev acq).1.window_id = app.window_id ∧
    (app.windowEvent id ev acq).1.state.isSome = app.state.isSome := by
  unfold App.windowEvent
  by_cases hid : some id ≠ app.window_id
  · simp [hid]
  · cases hs : app.state with
    | none => simp [hid, hs]
    | some s =>
        cases ev with
        | resized w h => simp [hid, hs]
        | redrawRequested => simp [hid, hs]
        | closeRequested => simp [hid, hs]
        | keyboardInput key st =>
            cases key <;> cases st <;> simp [hid, hs]
        | other => simp [hid, hs]

theorem windowEvent_no_exit (app : App) (id : ℕ) (ev : WindowEvent)
    (acq : AcquireResult) (hev : isExitEvent ev = false) :
    (app.windowEvent id ev acq).2.2 = false := by
  unfold App.windowEvent
  by_cases hid : some id ≠ app.window_id
  · simp [hid]
  · cases hs : app.state with
    | none => simp [hid, hs]
    | some s =>
        cases ev with
        | resized w h => simp [hid, hs]
        | redrawRequested => simp [hid, hs]
        | closeRequested => simp [isExitEvent] at hev
        | keyboardInput key st =>
            cases key with
            | Escape =>
                cases st with
                | Pressed => simp [isExitEvent] at hev
                | Released => simp [hid, hs]
            | Other n => cases st <;> simp [hid, hs]
        | other => simp [hid, hs]

theorem processEvents_stop (wid : ℕ) (ev : WindowEvent)
    (acq : AcquireResult) (hev : isExitEvent ev = true)
    (rest : List (WindowEvent × AcquireResult)) :
    ∀ (pre : List (WindowEvent × AcquireResult)) (app : App),
      app.window_id = some wid → app.state.isSome = true →
      (∀ p ∈ pre, isExitEvent p.1 = false) →
      processEvents wid app (pre ++ (ev, acq) :: rest) =
        processEvents wid app (pre ++ [(ev, acq)]) := by
  intro pre
  induction pre with
  | nil =>
      intro app h1 h2 _
      simp [processEvents, windowEvent_exit app wid ev acq h1 h2 hev]
  | cons p pre ih =>
      intro app h1 h2 h3
      have hno : (app.windowEvent wid p.1 p.2).2.2 = false :=
        windowEvent_no_exit app wid p.1 p.2 (h3 p (List.mem_cons_self p pre))
      have hpres := windowEvent_preserves app wid p.1 p.2
      simp only [List.cons_append, processEvents, hno, if_false,
        Bool.false_eq_true]
      exact congrArg _ (ih (app.windowEvent wid p.1 p.2).1
        (hpres.1.trans h1) (hpres.2.trans h2)
        (fun q hq => h3 q (List.mem_cons_of_mem p hq)))

/-- C8: when the application is running (the event id matches the created
window and the state is built), a close request or a pressed Escape key
terminates immediately with no effects, and no later event — in particular
no redraw — is processed after termination is signaled. -/
theorem exit_spec (app : App) (wid : ℕ) (acq : AcquireResult)
    (pre rest : List (WindowEvent × AcquireResult))
    (h1 : app.window_id = some wid) (h2 : app.state.isSome = true)
    (h3 : ∀ p ∈ pre, isExitEvent p.1 = false) :
    app.windowEvent wid WindowEvent.closeRequested acq = (app, [], true) ∧
    app.windowEvent wid
      (WindowEvent.keyboardInput KeyCode.Escape ElementState.Pressed) acq =
      (app, [], true) ∧
    processEvents wid app ((WindowEvent.closeRequested, acq) :: rest) =
      [] ∧
    processEvents wid app
      ((WindowEvent.keyboardInput KeyCode.Escape ElementState.Pressed, acq)
        :: rest) = [] ∧
    processEvents wid app
      (pre ++ (WindowEvent.closeRequested, acq) :: rest) =
      processEvents wid app (pre ++ [(WindowEvent.closeRequested, acq)]) := by
  refine
    ⟨windowEvent_exit app wid WindowEvent.closeRequested acq h1 h2 rfl,
     windowEvent_exit app wid
       (WindowEvent.keyboardInput KeyCode.Escape ElementState.Pressed)
       acq h1 h2 rfl, ?_, ?_, ?_⟩
  · simp [processEvents,
      windowEvent_exit app wid WindowEvent.closeRequested acq h1 h2 rfl]
  · simp [processEvents,
      windowEvent_exit app wid
        (WindowEvent.keyboardInput KeyCode.Escape ElementState.Pressed)
        acq h1 h2 rfl]
  · exact processEvents_stop wid WindowEvent.closeRequested acq rfl rest
      pre app h1 h2 h3

/-- C8 witness: with the demo state running, a close request delivered
after a benign event terminates, and a pending redraw after it is never
processed. -/
theorem exit_spec_witness :
    (App.mk (some demoState) (some 7)).window_id = some 7 ∧
    processEvents 7 (App.mk (some demoState) (some 7))
      ((WindowEvent.closeRequested, AcquireResult.ok) ::
        [(WindowEvent.redrawRequested, AcquireResult.ok)]) = [] ∧
    processEvents 7 (App.mk (some demoState) (some 7))
      ([(WindowEvent.other, AcquireResult.ok)] ++
        (WindowEvent.closeRequested, AcquireResult.ok) ::
          [(WindowEvent.redrawRequested, AcquireResult.ok)]) =
      processEvents 7 (App.mk (some demoState) (some 7))
        ([(WindowEvent.other, AcquireResult.ok)] ++
          [(WindowEvent.closeRequested, AcquireResult.ok)]) := by
  have h := exit_spec (App.mk (some demoState) (some 7)) 7 AcquireResult.ok
    [(WindowEvent.other, AcquireResult.ok)]
    [(WindowEvent.redrawRequested, AcquireResult.ok)]
    rfl rfl (by intro p hp; simp at hp; simp [hp, isExitEvent])
  exact ⟨rfl, h.2.2.1, h.2.2.2.2⟩

/-- C9: the pipeline descriptor has triangle-list topology, Ccw front-face
winding, back-face culling, alpha blending on its single color target, no
depth or stencil attachment, and single-sample default multisampling; and
neither resize nor render ever changes the stored pipeline. -/
theorem pipeline_spec (f : TextureFormat) (s : State) (w h : ℕ)
    (acq : AcquireResult) :
    (makePipeline f).primitive.topology = PrimitiveTopology.TriangleList ∧
    (makePipeline f).primitive.front_face = FrontFace.Ccw ∧
    (makePipeline f).primitive.cull_mode = some Face.Back ∧
    (makePipeline f).targets = [some ⟨f, some alphaBlending, 15⟩] ∧
    (makePipeline f).depth_stencil = none ∧
    (makePipeline f).multisample = ⟨1, 2 ^ 64 - 1, false⟩ ∧
    (s.resize w h).1.pipeline = s.pipeline ∧
    (s.render acq).1.pipeline = s.pipeline := by
  refine ⟨rfl, rfl, rfl, rfl, rfl, rfl, rfl, ?_⟩
  cases acq <;> rfl

/-- C10: an event whose window id is not the created window's id, or one
delivered before the state is built, has no effect at all: the application
value is unchanged, no effects are emitted, and no termination is
signaled. -/
theorem event_guard_spec (app : App) (id : ℕ) (ev : WindowEvent)
    (acq : AcquireResult) :
    (some id ≠ app.window_id →
      app.windowEvent id ev acq = (app, [], false)) ∧
    (app.state = none →
      app.windowEvent id ev acq = (app, [], false)) := by
  constructor
  · intro h
    simp [App.windowEvent, h]
  · intro h
    unfold App.windowEvent
    by_cases hid : some id ≠ app.window_id
    · simp [hid]
    · simp [hid, h]

/-- C10 witness: a mismatched id and an uninitialized state each drop the
event. -/
theorem event_guard_spec_witness :
    (some 5 ≠ (App.mk (some demoState) (some 3)).window_id ∧
      (App.mk (some demoState) (some 3)).windowEvent 5
        WindowEvent.redrawRequested AcquireResult.ok =
        (App.mk (some demoState) (some 3), [], false)) ∧
    ((App.mk none (some 3)).state = none ∧
      (App.mk none (some 3)).windowEvent 3
        WindowEvent.redrawRequested AcquireResult.ok =
        (App.mk none (some 3), [], false)) :=
  ⟨⟨by decide,
    (event_guard_spec (App.mk (some demoState) (some 3)) 5
      WindowEvent.redrawRequested AcquireResult.ok).1 (by decide)⟩,
   ⟨rfl,
    (event_guard_spec (App.mk none (some 3)) 3
      WindowEvent.redrawRequested AcquireResult.ok).2 rfl⟩⟩

end Wgpu
